import Mathlib

/-!
# Authentication, lockout, role bootstrap and note ownership of `server.js`

A shallow embedding of the route handlers of `src/server.js`.

* The two MongoDB collections are lists of documents (`List User`, `List Note`).
  `findOne` returns the first matching document, `save`, `findOneAndUpdate` and
  `findOneAndDelete` touch the first matching document only.  The in-memory
  collections never fail, so the `catch` branches that only a store failure can
  reach have no counterpart; the `catch` branches reachable through a request
  (a rejected `bcrypt.compare`, a `null` document being dereferenced, a route
  parameter that is not an ObjectId) are modelled.
* Stored ids (`_id`, `userId`) are natural numbers, that is ObjectIds.  The route
  parameter `req.params.id` is an `IdParam`: `some id` when the string casts to
  the ObjectId `id`, `none` when it does not, in which case the query on `_id`
  throws a `CastError` and the `catch` block of the handler answers.
* Numbers are JavaScript numbers: `failedLoginAttempts` holds a non-negative
  integer and `+ 1` is the addition of doubles (`jsAddOne`), exact below `2^53`.
* The fields of the registration, profile and note forms are strings; there a
  field that is missing from the request body is the empty string, which these
  handlers cannot tell apart from a missing field (`!x` holds for both).  The
  `role` field of the registration form is optional.  The login handler does not
  test its fields: its `email` and `password` are the strings that were sent,
  and a `password` that `bcrypt.compare` refuses is a rejected `compare`.
* `bcrypt.compare` and `bcrypt.hash` are parameters of the handlers.  Every call
  of `bcrypt.compare` is recorded in the result of the login handler.
-/

namespace Kerefo

/-! ## Data model -/

/-- Modelled from the spec: the schema `models/User.js` is not part of the
sources.  The fields are the ones `server.js` reads and writes; by the data
model of the specification `failedLoginAttempts` defaults to `0`, `isLocked`
to `false` and `role` is a string. -/
structure User where
  _id : Nat
  username : String
  email : String
  password : String
  profilePic : String
  role : String
  failedLoginAttempts : Nat := 0
  isLocked : Bool := false
  deriving DecidableEq, Repr

/-- Modelled from the spec: the schema `models/Note.js` is not part of the
sources.  `userId` is the owner reference, `createdAt` a timestamp. -/
structure Note where
  _id : Nat
  title : String
  content : String
  userId : Nat
  createdAt : Nat
  deriving DecidableEq, Repr

/-- The object stored in `req.session.user` by the login handler. -/
structure SessionUser where
  id : Nat
  username : String
  email : String
  role : String
  profilePic : String
  deriving DecidableEq, Repr

/-- The two session keys written by the login handler: `req.session.userId`
and `req.session.user`. -/
structure Session where
  userId : Nat
  user : SessionUser
  deriving DecidableEq, Repr

/-- What a handler sends back. -/
inductive Response where
  /-- The call `res.render(view, { error })`. -/
  | render (view : String) (error : Option String)
  /-- The call `res.render(view, { success })`. -/
  | renderSuccess (view : String) (success : String)
  /-- The call `res.render('notes/index', { notes })`. -/
  | renderNotes (notes : List Note)
  /-- The call `res.render('notes/edit', { note, error: null })`. -/
  | renderEdit (note : Note)
  /-- The call `res.render('admin_top_authors', { topAuthors })`. -/
  | renderTopAuthors (rows : List (String × Nat))
  /-- The call `res.redirect(path)`. -/
  | redirect (path : String)
  /-- The call `res.status(status).json({ success, message })`. -/
  | json (status : Nat) (success : Bool) (message : String)
  /-- The rejection of a request by the `isAdmin` guard. -/
  | forbidden
  deriving DecidableEq, Repr

/-! ## Store operations -/

/-- The query `User.findOne({ email })`. -/
def findOneByEmail (users : List User) (email : String) : Option User :=
  users.find? (fun u => u.email == email)

/-- The query `User.findById(id)`. -/
def findById (users : List User) (id : Nat) : Option User :=
  users.find? (fun u => u._id == id)

/-- The query `User.findOne({ role: 'admin' })`. -/
def findOneAdmin (users : List User) : Option User :=
  users.find? (fun u => u.role == "admin")

/-- The call `doc.save()` on a document that was loaded from the collection: the stored
document with the same `_id` is replaced. -/
def save : List User → User → List User
  | [], _ => []
  | x :: xs, u => if x._id = u._id then u :: xs else x :: save xs u

/-- The call `newUser.save()` on a document that was created with `new User(...)`. -/
def insert (users : List User) (u : User) : List User :=
  users ++ [u]

/-! ## Login (`POST /login`) -/

/-- The result of the login handler: the collection and the session after the
request, the response, and the arguments of every `bcrypt.compare` call. -/
structure LoginResult where
  users : List User
  session : Option Session
  response : Response
  compared : List (String × String)
  deriving DecidableEq, Repr

/-- The expression `x || 0` on a number. -/
def orZero (x : Nat) : Nat := if x = 0 then 0 else x

/-- The expression `x + 1` on a JavaScript number that holds the non-negative
integer `x`.  Below `2^53` the sum is exact.  From `2^53` to `2^54` the doubles
are the even integers, `x + 1` lies half way between `x` and `x + 2` and is
rounded to the one with the even significand, the multiple of `4`.  From `2^54`
on the doubles are at least `4` apart and the sum is rounded back to `x`. -/
def jsAddOne (x : Nat) : Nat :=
  if x < 2 ^ 53 then x + 1
  else if x < 2 ^ 54 then (if x % 4 = 2 then x + 2 else x)
  else x

/-- The handler of `POST /login`.  `compare password hash` is
`await bcrypt.compare(password, hash)`; `none` stands for a rejected promise,
which the `catch` block turns into the generic failure page. -/
def postLogin (compare : String → String → Option Bool) (users : List User)
    (session : Option Session) (email password : String) : LoginResult :=
  match findOneByEmail users email with
  | none => ⟨users, session, .render "login" (some "Invalid email or password."), []⟩
  | some user =>
    if user.isLocked then
      ⟨users, session,
        .render "login" (some "Account is locked due to multiple failed login attempts."), []⟩
    else
      match compare password user.password with
      | none =>
        ⟨users, session, .render "login" (some "Something went wrong. Please try again."),
          [(password, user.password)]⟩
      | some false =>
        let user1 :=
          { user with failedLoginAttempts := jsAddOne (orZero user.failedLoginAttempts) }
        let user2 := if user1.failedLoginAttempts ≥ 5 then { user1 with isLocked := true } else user1
        ⟨save users user2, session, .render "login" (some "Invalid email or password."),
          [(password, user.password)]⟩
      | some true =>
        let user1 := { user with failedLoginAttempts := 0, isLocked := false }
        let session1 : Session :=
          { userId := user1._id
            user := { id := user1._id, username := user1.username, email := user1.email,
                      role := user1.role, profilePic := user1.profilePic } }
        ⟨save users user1, some session1,
          if user1.role = "admin" then .redirect "/admin/notes" else .redirect "/dashboard",
          [(password, user.password)]⟩

/-- The collection and the session after a run of login requests for one email,
one request per password of the list, with no other request in between. -/
def loginRun (compare : String → String → Option Bool) (users : List User)
    (session : Option Session) (email : String) : List String → List User × Option Session
  | [] => (users, session)
  | p :: ps => loginRun compare (postLogin compare users session email p).users
      (postLogin compare users session email p).session email ps

/-- The generic invalid-credentials page. -/
def invalidCredentials : Response := .render "login" (some "Invalid email or password.")

/-- The page of a locked account. -/
def accountLocked : Response :=
  .render "login" (some "Account is locked due to multiple failed login attempts.")

/-! ## Registration (`POST /register`) -/

/-- The value of `s.length` for a JavaScript string: the number of UTF-16 code
units. -/
def jsLength (s : String) : Nat :=
  (s.toList.map (fun c => if c.toNat < 65536 then 1 else 2)).sum

/-- The fields of the registration form. -/
structure RegisterBody where
  username : String
  email : String
  password : String
  confirmPassword : String
  role : Option String
  deriving DecidableEq, Repr

/-- The role the registration handler stores (`userRole`): the default is
`'user'`; a request for `'admin'` is granted when no admin exists. -/
def userRole (users : List User) (role : Option String) : String :=
  if role = some "admin" then
    match findOneAdmin users with
    | none => "admin"
    | some _ => "user"
  else "user"

/-- The handler of `POST /register`.  `hash password` is
`await bcrypt.hash(password, 10)`, `newId` the `_id` generated for the new
document and `file` the name under which an uploaded picture was stored. -/
def postRegister (hash : String → String) (users : List User) (newId : Nat)
    (body : RegisterBody) (file : Option String) : List User × Response :=
  let profilePicPath := match file with
    | some filename => "/uploads/" ++ filename
    | none => ""
  if body.username = "" ∨ body.email = "" ∨ body.password = "" ∨ body.confirmPassword = "" then
    (users, .render "register" (some "Please fill in all fields."))
  else if body.password ≠ body.confirmPassword then
    (users, .render "register" (some "Passwords do not match."))
  else if jsLength body.password < 6 then
    (users, .render "register" (some "Password must be at least 6 characters."))
  else
    match findOneByEmail users body.email with
    | some _ => (users, .render "register" (some "Email is already registered."))
    | none =>
      let hashedPassword := hash body.password
      let newUser : User :=
        { _id := newId, username := body.username, email := body.email,
          password := hashedPassword, profilePic := profilePicPath,
          role := userRole users body.role }
      (insert users newUser, .redirect "/login")

/-! ## Guards -/

/-- Modelled from the spec: `middlewares/auth.js` is not part of the sources.
The guard `ensureAuthenticated` passes the request on to the handler `next` iff
it carries a session identity; otherwise the request is redirected to the login
page. -/
def ensureAuthenticated {α : Type} (session : Option Session) (redirectLogin : α)
    (next : Session → α) : α :=
  match session with
  | none => redirectLogin
  | some sess => next sess

/-- Modelled from the spec: `middlewares/auth.js` is not part of the sources.
The guard `isAdmin` passes iff the role of the session identity is `admin`;
otherwise the request is rejected as forbidden. -/
def isAdmin (sess : Session) : Bool := sess.user.role == "admin"

/-! ## Profile (`POST /users/profile`, `POST /edit-profile`) -/

/-- The fields of the profile form. -/
structure ProfileBody where
  username : String
  email : String
  currentPassword : String
  newPassword : String
  confirmNewPassword : String
  deriving DecidableEq, Repr

/-- The session after a profile change: `username`, `email` and `profilePic` of
`req.session.user` are refreshed from the stored document. -/
def refreshSession (sess : Session) (user : User) : Session :=
  { sess with user := { sess.user with username := user.username, email := user.email,
                                       profilePic := user.profilePic } }

/-- The handler of `POST /users/profile`. -/
def postUsersProfile (compare : String → String → Option Bool) (hash : String → String)
    (users : List User) (session : Option Session) (body : ProfileBody)
    (file : Option String) : List User × Option Session × Response :=
  ensureAuthenticated session (users, session, .redirect "/login") fun sess =>
    let profilePicPath := match file with
      | some filename => "/uploads/" ++ filename
      | none => sess.user.profilePic
    if body.username = "" ∨ body.email = "" then
      (users, session, .render "profile" (some "Username and email are required."))
    else
      match findById users sess.userId with
      | none => (users, session, .render "profile" (some "Update failed. Try again."))
      | some user =>
        let user1 := { user with username := body.username, email := body.email,
                                 profilePic := profilePicPath }
        if body.newPassword ≠ "" ∨ body.confirmNewPassword ≠ "" then
          if body.currentPassword = "" then
            (users, session,
              .render "profile" (some "Current password is required to change your password."))
          else
            match compare body.currentPassword user1.password with
            | none => (users, session, .render "profile" (some "Update failed. Try again."))
            | some false =>
              (users, session, .render "profile" (some "Incorrect current password."))
            | some true =>
              if body.newPassword ≠ body.confirmNewPassword then
                (users, session, .render "profile" (some "New passwords do not match."))
              else
                let user2 := { user1 with password := hash body.newPassword }
                (save users user2, some (refreshSession sess user2),
                  .renderSuccess "profile" "Profile updated successfully!")
        else
          (save users user1, some (refreshSession sess user1),
            .renderSuccess "profile" "Profile updated successfully!")

/-- The handler of `POST /edit-profile`: `User.findByIdAndUpdate` with the three
profile fields. -/
def postEditProfile (users : List User) (session : Option Session) (username email : String)
    (file : Option String) : List User × Option Session × Response :=
  ensureAuthenticated session (users, session, .redirect "/login") fun sess =>
    let profilePicPath := match file with
      | some filename => "/uploads/" ++ filename
      | none => sess.user.profilePic
    if username = "" ∨ email = "" then
      (users, session, .render "edit-profile" (some "All fields are required."))
    else
      match findById users sess.userId with
      | none => (users, session, .render "edit-profile" (some "Update failed. Try again."))
      | some user =>
        let updatedUser := { user with username := username, email := email,
                                       profilePic := profilePicPath }
        (save users updatedUser, some (refreshSession sess updatedUser), .redirect "/dashboard")

/-! ## Notes -/

/-- The route parameter `req.params.id` as a query on `_id` sees it: `some id`
when the string casts to the ObjectId `id`, `none` when the cast fails and the
query throws a `CastError`. -/
abbrev IdParam := Option Nat

/-- The call `Note.findOneAndUpdate(filter, { title, content })`: the first
document matching the filter gets the new title and content. -/
def findOneAndUpdate (filter : Note → Bool) (title content : String) : List Note → List Note
  | [] => []
  | n :: ns =>
    if filter n then { n with title := title, content := content } :: ns
    else n :: findOneAndUpdate filter title content ns

/-- The call `Note.findOneAndDelete(filter)`: the first document matching the
filter is removed and returned; `none` is returned when no document matches. -/
def findOneAndDelete (filter : Note → Bool) : List Note → Option Note × List Note
  | [] => (none, [])
  | n :: ns =>
    if filter n then (some n, ns)
    else ((findOneAndDelete filter ns).1, n :: (findOneAndDelete filter ns).2)

/-- The handler of `GET /notes`. -/
def getNotes (notes : List Note) (session : Option Session) : Response :=
  ensureAuthenticated session (.redirect "/login") fun sess =>
    .renderNotes (notes.filter (fun n => n.userId == sess.userId))

/-- The handler of `GET /notes/:id/edit`.  For a parameter that is no ObjectId
the query throws and the `catch` block redirects. -/
def getNotesEdit (notes : List Note) (session : Option Session) (id : IdParam) : Response :=
  ensureAuthenticated session (.redirect "/login") fun sess =>
    match id with
    | none => .redirect "/notes"
    | some id =>
      match notes.find? (fun n => n._id == id && n.userId == sess.userId) with
      | none => .redirect "/notes"
      | some note => .renderEdit note

/-- The handler of `POST /notes/:id/edit`.  For a parameter that is no ObjectId
the query throws and the `catch` block renders the form with an error. -/
def postNotesEdit (notes : List Note) (session : Option Session) (id : IdParam)
    (title content : String) : List Note × Response :=
  ensureAuthenticated session (notes, .redirect "/login") fun sess =>
    if title = "" ∨ content = "" then
      (notes, .render "notes/edit" (some "Title and content are required"))
    else
      match id with
      | none => (notes, .render "notes/edit" (some "Error updating note"))
      | some id =>
        (findOneAndUpdate (fun n => n._id == id && n.userId == sess.userId) title content notes,
          .redirect "/notes")

/-- The handler of `DELETE /notes/:id`.  For a parameter that is no ObjectId the
query throws and the `catch` block answers with status 500. -/
def deleteNotes (notes : List Note) (session : Option Session) (id : IdParam) :
    List Note × Response :=
  ensureAuthenticated session (notes, .redirect "/login") fun sess =>
    match id with
    | none => (notes, .json 500 false "Error deleting note")
    | some id =>
      match findOneAndDelete (fun n => n._id == id && n.userId == sess.userId) notes with
      | (none, notes1) =>
        (notes1, .json 404 false "Note not found or you don\x27t have permission")
      | (some _, notes1) => (notes1, .json 200 true "Note deleted successfully")

/-- The handler of `DELETE /admin/delete-note/:id`: `Note.findByIdAndDelete`.
For a parameter that is no ObjectId the query throws and the `catch` block
answers with status 500. -/
def deleteAdminDeleteNote (notes : List Note) (session : Option Session) (id : IdParam) :
    List Note × Response :=
  ensureAuthenticated session (notes, .redirect "/login") fun sess =>
    if isAdmin sess then
      match id with
      | none => (notes, .json 500 false "Error deleting note")
      | some id =>
        ((findOneAndDelete (fun n => n._id == id) notes).2,
          .json 200 true "Note deleted successfully")
    else (notes, .forbidden)

/-- The response of `DELETE /notes/:id` when no document was deleted. -/
def notFoundOrForbidden : Response :=
  .json 404 false "Note not found or you don\x27t have permission"

/-- The response of a delete handler when it reports success. -/
def deleted : Response := .json 200 true "Note deleted successfully"

/-- The response of the `catch` block of a delete handler. -/
def errorDeleting : Response := .json 500 false "Error deleting note"

/-! ## Top authors (`GET /admin/top-authors`) -/

/-- A document after the `$group` stage. -/
structure AuthorGroup where
  _id : Nat
  postCount : Nat
  deriving DecidableEq, Repr

/-- A document after the `$lookup` stage: `user` is the array of joined users. -/
structure AuthorJoined where
  _id : Nat
  postCount : Nat
  user : List User
  deriving DecidableEq, Repr

/-- A document after the `$unwind` stage. -/
structure AuthorUnwound where
  _id : Nat
  postCount : Nat
  user : User
  deriving DecidableEq, Repr

/-- One note enters the `$group` accumulator: `postCount: { $sum: 1 }` for the
group of its `userId`. -/
def groupStep (acc : List AuthorGroup) (n : Note) : List AuthorGroup :=
  if acc.any (fun g => g._id == n.userId) then
    acc.map (fun g => if g._id = n.userId then { g with postCount := g.postCount + 1 } else g)
  else acc ++ [{ _id := n.userId, postCount := 1 }]

/-- The stage `$group: { _id: "$userId", postCount: { $sum: 1 } }`. -/
def group (notes : List Note) : List AuthorGroup :=
  notes.foldl groupStep []

/-- The stage `$lookup` from `users` on `_id`. -/
def lookup (users : List User) (groups : List AuthorGroup) : List AuthorJoined :=
  groups.map (fun g =>
    { _id := g._id, postCount := g.postCount, user := users.filter (fun u => u._id == g._id) })

/-- The stage `$unwind: "$user"`: one document per joined user, none for an empty
array. -/
def unwind (joined : List AuthorJoined) : List AuthorUnwound :=
  joined.flatMap (fun j =>
    j.user.map (fun u => { _id := j._id, postCount := j.postCount, user := u }))

/-- The stage `$project: { _id: 0, username: "$user.username", postCount: 1 }`. -/
def project (rows : List AuthorUnwound) : List (String × Nat) :=
  rows.map (fun r => (r.user.username, r.postCount))

/-- The stage `$sort: { postCount: -1 }`. -/
def sortByPostCount (rows : List (String × Nat)) : List (String × Nat) :=
  rows.insertionSort (fun a b => a.2 ≥ b.2)

/-- The aggregation pipeline of `GET /admin/top-authors`, ending in `$limit: 10`. -/
def topAuthors (notes : List Note) (users : List User) : List (String × Nat) :=
  (sortByPostCount (project (unwind (lookup users (group notes))))).take 10

/-- The handler of `GET /admin/top-authors`. -/
def getAdminTopAuthors (notes : List Note) (users : List User) (session : Option Session) :
    Response :=
  ensureAuthenticated session (.redirect "/login") fun sess =>
    if isAdmin sess then .renderTopAuthors (topAuthors notes users) else .forbidden

/-! ## Reachable user collections -/

/-- The predicate of the data model: a locked account has at least five failed
attempts on record. -/
def lockoutInvariant (users : List User) : Prop :=
  ∀ u ∈ users, u.isLocked = true → 5 ≤ u.failedLoginAttempts

/-- The user collections that the handlers writing user documents produce from
the empty collection: registration, login, profile update and edit-profile, with
arbitrary requests. -/
inductive Reachable (compare : String → String → Option Bool) (hash : String → String) :
    List User → Prop where
  | empty : Reachable compare hash []
  | register {users : List User} (newId : Nat) (body : RegisterBody) (file : Option String) :
      Reachable compare hash users →
      Reachable compare hash (postRegister hash users newId body file).1
  | login {users : List User} (session : Option Session) (email password : String) :
      Reachable compare hash users →
      Reachable compare hash (postLogin compare users session email password).users
  | profile {users : List User} (session : Option Session) (body : ProfileBody)
      (file : Option String) :
      Reachable compare hash users →
      Reachable compare hash (postUsersProfile compare hash users session body file).1
  | editProfile {users : List User} (session : Option Session) (username email : String)
      (file : Option String) :
      Reachable compare hash users →
      Reachable compare hash (postEditProfile users session username email file).1

/-! ## Scenario data -/

/-- A verifier that rejects every password. -/
def rejectAll : String → String → Option Bool := fun _ _ => some false

/-- A verifier for hashes of the form `hash:` followed by the password. -/
def compareToy : String → String → Option Bool := fun password hash =>
  some (hash == "hash:" ++ password)

/-- The hash function that `compareToy` verifies. -/
def hashToy : String → String := fun password => "hash:" ++ password

/-- An account as the registration handler creates it. -/
def alice : User :=
  { _id := 1, username := "alice", email := "a@x.com", password := "hash:secret1",
    profilePic := "", role := "user" }

/-- An unlocked account that has one failed attempt on record. -/
def aliceOneFailure : User := { alice with failedLoginAttempts := 1 }

/-- A locked account. -/
def aliceLocked : User := { alice with failedLoginAttempts := 5, isLocked := true }

/-- The registration form of the scenario for alice, with the given `role`
field. -/
def aliceBody (role : Option String) : RegisterBody :=
  { username := "alice", email := "a@x.com", password := "secret1",
    confirmPassword := "secret1", role := role }

/-- The registration form of the scenario for bob, who asks for the admin role. -/
def bobBody : RegisterBody :=
  { username := "bob", email := "b@x.com", password := "secret2",
    confirmPassword := "secret2", role := some "admin" }

/-- The session of a requester with the given id and role. -/
def sessionOf (id : Nat) (role : String) : Session :=
  { userId := id, user := { id := id, username := "", email := "", role := role,
                            profilePic := "" } }

/-- A note of user `2`. -/
def noteOfTwo : Note := { _id := 10, title := "t", content := "c", userId := 2, createdAt := 0 }

/-- A note of user `3`. -/
def noteOfThree : Note := { _id := 11, title := "t", content := "c", userId := 3, createdAt := 1 }

/-- The users `u1`, `u2`, `u3` of the top-authors scenario. -/
def exampleUsers : List User :=
  [{ _id := 1, username := "u1", email := "u1@x.com", password := "h", profilePic := "",
     role := "user" },
   { _id := 2, username := "u2", email := "u2@x.com", password := "h", profilePic := "",
     role := "user" },
   { _id := 3, username := "u3", email := "u3@x.com", password := "h", profilePic := "",
     role := "admin" }]

/-- A note of the scenario: only the owner matters. -/
def noteBy (id owner : Nat) : Note :=
  { _id := id, title := "t", content := "c", userId := owner, createdAt := id }

/-- Nine notes: three of `u1`, one of `u2`, five of `u3`. -/
def exampleNotes : List Note :=
  [noteBy 1 1, noteBy 2 3, noteBy 3 2, noteBy 4 3, noteBy 5 1, noteBy 6 3, noteBy 7 3,
   noteBy 8 1, noteBy 9 3]

/-! ## Lemmas on the user collection -/

theorem findOneByEmail_cons (x : User) (xs : List User) (email : String) :
    findOneByEmail (x :: xs) email
      = if x.email = email then some x else findOneByEmail xs email := by
  by_cases hx : x.email = email <;> simp [findOneByEmail, List.find?_cons, hx]

theorem findById_cons (x : User) (xs : List User) (id : Nat) :
    findById (x :: xs) id = if x._id = id then some x else findById xs id := by
  by_cases hx : x._id = id <;> simp [findById, List.find?_cons, hx]

theorem findOneByEmail_save {users : List User} {email : String} {u : User} (u' : User)
    (hfind : findOneByEmail users email = some u) (hid : u'._id = u._id)
    (hemail : u'.email = email) : findOneByEmail (save users u') email = some u' := by
  induction users with
  | nil => simp [findOneByEmail] at hfind
  | cons x xs ih =>
    rw [findOneByEmail_cons] at hfind
    by_cases hx : x.email = email
    · rw [if_pos hx] at hfind
      have hxu : x = u := Option.some.inj hfind
      subst hxu
      simp [save, hid, findOneByEmail_cons, hemail]
    · rw [if_neg hx] at hfind
      by_cases hxi : x._id = u'._id
      · simp [save, hxi, findOneByEmail_cons, hemail]
      · simpa [save, hxi, findOneByEmail_cons, hx] using ih hfind

theorem findById_save {users : List User} {u : User} (u' : User)
    (hmem : u ∈ users) (hid : u'._id = u._id) : findById (save users u') u._id = some u' := by
  induction users with
  | nil => simp at hmem
  | cons x xs ih =>
    by_cases hxi : x._id = u'._id
    · simp [save, hxi, findById_cons, hid]
    · have hxi' : ¬ x._id = u._id := fun h => hxi (by rw [h, hid])
      have hmem' : u ∈ xs := by
        rcases List.mem_cons.1 hmem with h | h
        · exact absurd (by rw [h]) hxi'
        · exact h
      simpa [save, hxi, findById_cons, hxi'] using ih hmem'

theorem findOneByEmail_mem {users : List User} {email : String} {u : User}
    (hfind : findOneByEmail users email = some u) : u ∈ users ∧ u.email = email := by
  unfold findOneByEmail at hfind
  exact ⟨List.mem_of_find?_eq_some hfind, by simpa using List.find?_some hfind⟩

/-! ## Lemmas on the login handler -/

theorem postLogin_locked (compare : String → String → Option Bool) {users : List User}
    (session : Option Session) {email : String} (password : String) {u : User}
    (hfind : findOneByEmail users email = some u) (hlocked : u.isLocked = true) :
    postLogin compare users session email password = ⟨users, session, accountLocked, []⟩ := by
  simp [postLogin, hfind, hlocked, accountLocked]

theorem jsAddOne_of_lt {x : Nat} (h : x < 2 ^ 53) : jsAddOne x = x + 1 := by
  unfold jsAddOne
  rw [if_pos h]

theorem five_le_jsAddOne (x : Nat) : 5 ≤ jsAddOne x ↔ 5 ≤ x + 1 := by
  unfold jsAddOne
  have h53 : (2 : Nat) ^ 53 = 9007199254740992 := by norm_num
  have h54 : (2 : Nat) ^ 54 = 18014398509481984 := by norm_num
  rw [h53, h54]
  split
  · exact Iff.rfl
  · split
    · split <;> omega
    · omega

theorem jsAddOne_at_two_pow_53 : jsAddOne (2 ^ 53) = 2 ^ 53 := by
  decide

theorem postLogin_failed_at_two_pow_53 :
    (postLogin rejectAll [{ alice with failedLoginAttempts := 2 ^ 53 }] none "a@x.com" "w").users
      = [{ alice with failedLoginAttempts := 2 ^ 53, isLocked := true }] := by
  decide

theorem postLogin_failed {compare : String → String → Option Bool} {users : List User}
    (session : Option Session) {email password : String} {u : User}
    (hfind : findOneByEmail users email = some u) (hunlocked : u.isLocked = false)
    (hwrong : compare password u.password = some false) :
    postLogin compare users session email password
      = ⟨save users { u with failedLoginAttempts := jsAddOne u.failedLoginAttempts,
                             isLocked := decide (5 ≤ jsAddOne u.failedLoginAttempts) },
          session, invalidCredentials, [(password, u.password)]⟩ := by
  have hz : orZero u.failedLoginAttempts = u.failedLoginAttempts := by
    unfold orZero; split <;> simp_all
  by_cases h5 : 5 ≤ jsAddOne u.failedLoginAttempts
  · simp [postLogin, hfind, hunlocked, hwrong, hz, h5, invalidCredentials]
  · simp [postLogin, hfind, hunlocked, hwrong, hz, h5, invalidCredentials]

theorem loginRun_locked (compare : String → String → Option Bool) {email : String} {u : User}
    (hlocked : u.isLocked = true) :
    ∀ (ps : List String) (users : List User) (session : Option Session),
      findOneByEmail users email = some u →
      loginRun compare users session email ps = (users, session) := by
  intro ps
  induction ps with
  | nil => intro users session _; rfl
  | cons p ps ih =>
    intro users session hfind
    simp only [loginRun, postLogin_locked compare session p hfind hlocked]
    exact ih users session hfind

theorem loginRun_wrong (compare : String → String → Option Bool) (email : String) :
    ∀ (ps : List String) (users : List User) (session : Option Session) (u : User),
      findOneByEmail users email = some u → u.isLocked = false →
      (∀ p ∈ ps, compare p u.password = some false) →
      ∃ u', findOneByEmail (loginRun compare users session email ps).1 email = some u' ∧
        u'._id = u._id ∧ u'.password = u.password ∧
        ((u'.isLocked = false ∧ u'.failedLoginAttempts = u.failedLoginAttempts + ps.length ∧
            (0 < ps.length → u.failedLoginAttempts + ps.length < 5)) ∨
          (u'.isLocked = true ∧ 5 ≤ u.failedLoginAttempts + ps.length)) := by
  intro ps
  induction ps with
  | nil =>
    intro users session u hfind hunlocked _
    exact ⟨u, hfind, rfl, rfl, Or.inl ⟨hunlocked, rfl, fun h => absurd h (by simp)⟩⟩
  | cons p ps ih =>
    intro users session u hfind hunlocked hwrong
    have hp : compare p u.password = some false := hwrong p (List.mem_cons_self _ _)
    have hstep := postLogin_failed session hfind hunlocked hp
    have hfind1 := findOneByEmail_save
      ({ u with failedLoginAttempts := jsAddOne u.failedLoginAttempts,
                isLocked := decide (5 ≤ jsAddOne u.failedLoginAttempts) } : User)
      hfind rfl (findOneByEmail_mem hfind).2
    simp only [loginRun, hstep, List.length_cons]
    by_cases h5 : 5 ≤ u.failedLoginAttempts + 1
    · have h5' : 5 ≤ jsAddOne u.failedLoginAttempts := (five_le_jsAddOne _).2 h5
      rw [loginRun_locked compare (by simp [h5']) ps _ session hfind1]
      exact ⟨_, hfind1, rfl, rfl, Or.inr ⟨by simp [h5'], by omega⟩⟩
    · have h5' : ¬ 5 ≤ jsAddOne u.failedLoginAttempts := fun h => h5 ((five_le_jsAddOne _).1 h)
      have hj : jsAddOne u.failedLoginAttempts = u.failedLoginAttempts + 1 :=
        jsAddOne_of_lt (lt_of_lt_of_le (by omega : u.failedLoginAttempts < 5) (by norm_num))
      obtain ⟨u', hf, hid, hpw, hcase⟩ := ih _ session _ hfind1 (by simp [h5'])
        (fun q hq => hwrong q (List.mem_cons_of_mem _ hq))
      refine ⟨u', hf, hid, hpw, ?_⟩
      simp only [hj] at hcase
      rcases hcase with ⟨hl, hn, hlt⟩ | ⟨hl, hn⟩
      · refine Or.inl ⟨hl, by omega, fun _ => ?_⟩
        rcases Nat.eq_zero_or_pos ps.length with h0 | hpos
        · omega
        · have := hlt hpos; omega
      · exact Or.inr ⟨hl, by omega⟩

theorem loginRun_wrong_session (compare : String → String → Option Bool) (email : String) :
    ∀ (ps : List String) (users : List User) (session : Option Session) (u : User),
      findOneByEmail users email = some u → u.isLocked = false →
      (∀ p ∈ ps, compare p u.password = some false) →
      (loginRun compare users session email ps).2 = session := by
  intro ps
  induction ps with
  | nil => intro users session u _ _ _; rfl
  | cons p ps ih =>
    intro users session u hfind hunlocked hwrong
    have hp : compare p u.password = some false := hwrong p (List.mem_cons_self _ _)
    have hstep := postLogin_failed session hfind hunlocked hp
    have hfind1 := findOneByEmail_save
      ({ u with failedLoginAttempts := jsAddOne u.failedLoginAttempts,
                isLocked := decide (5 ≤ jsAddOne u.failedLoginAttempts) } : User)
      hfind rfl (findOneByEmail_mem hfind).2
    simp only [loginRun, hstep]
    by_cases h5 : 5 ≤ jsAddOne u.failedLoginAttempts
    · rw [loginRun_locked compare (by simp [h5]) ps _ session hfind1]
    · exact ih _ session _ hfind1 (by simp [h5])
        (fun q hq => hwrong q (List.mem_cons_of_mem _ hq))

/-! ## Lockout -/

/-- C1 (amended): for every existing account that is not locked, whatever its
`failedLoginAttempts`, after five consecutive login requests with a wrong
password the account is locked; every one of these requests that finds the
account still unlocked answers with the generic invalid-credentials page and
stores the JavaScript sum `failedLoginAttempts + 1`, which is exactly one more
whenever the counter is below `2^53`; and when the counter was `0` before the
first request, each of the five requests finds the account unlocked with a
counter below `5`. -/
theorem login_five_wrong_passwords_lock (compare : String → String → Option Bool)
    (users : List User) (session : Option Session) (email : String) (u : User)
    (ps : List String)
    (hfind : findOneByEmail users email = some u) (hunlocked : u.isLocked = false)
    (hlen : ps.length = 5) (hwrong : ∀ p ∈ ps, compare p u.password = some false) :
    (∃ u', findOneByEmail (loginRun compare users session email ps).1 email = some u' ∧
        u'._id = u._id ∧ u'.isLocked = true) ∧
    (∀ (k : Nat) (p : String) (uk : User), ps[k]? = some p →
        findOneByEmail (loginRun compare users session email (ps.take k)).1 email = some uk →
        uk.isLocked = false →
        (postLogin compare (loginRun compare users session email (ps.take k)).1
            (loginRun compare users session email (ps.take k)).2 email p).response
          = invalidCredentials ∧
        findOneByEmail (postLogin compare (loginRun compare users session email (ps.take k)).1
            (loginRun compare users session email (ps.take k)).2 email p).users email
          = some { uk with failedLoginAttempts := jsAddOne uk.failedLoginAttempts,
                           isLocked := decide (5 ≤ jsAddOne uk.failedLoginAttempts) } ∧
        (uk.failedLoginAttempts < 2 ^ 53 →
          findOneByEmail (postLogin compare (loginRun compare users session email (ps.take k)).1
              (loginRun compare users session email (ps.take k)).2 email p).users email
            = some { uk with failedLoginAttempts := uk.failedLoginAttempts + 1,
                             isLocked := decide (5 ≤ uk.failedLoginAttempts + 1) })) ∧
    (u.failedLoginAttempts = 0 → ∀ k, k < 5 →
        ∃ uk, findOneByEmail (loginRun compare users session email (ps.take k)).1 email
            = some uk ∧ uk.isLocked = false ∧ uk.failedLoginAttempts = k) := by
  have htake : ∀ k, ∀ p ∈ ps.take k, compare p u.password = some false :=
    fun k p hp => hwrong p (List.mem_of_mem_take hp)
  refine ⟨?_, ?_, ?_⟩
  · obtain ⟨u', hf, hid, _, hcase⟩ :=
      loginRun_wrong compare email ps users session u hfind hunlocked hwrong
    refine ⟨u', hf, hid, ?_⟩
    rcases hcase with ⟨_, _, hlt⟩ | ⟨hl, _⟩
    · have := hlt (by omega); omega
    · exact hl
  · intro k p uk hk hfk hunl
    obtain ⟨u', hf, _, hpw, _⟩ :=
      loginRun_wrong compare email (ps.take k) users session u hfind hunlocked (htake k)
    have huk : u' = uk := Option.some.inj (hf.symm.trans hfk)
    subst huk
    have hp : compare p u'.password = some false := by
      rw [hpw]; exact hwrong p (List.getElem?_mem hk)
    rw [postLogin_failed _ hfk hunl hp]
    have hstored := findOneByEmail_save
      ({ u' with failedLoginAttempts := jsAddOne u'.failedLoginAttempts,
                 isLocked := decide (5 ≤ jsAddOne u'.failedLoginAttempts) } : User)
      hfk rfl (findOneByEmail_mem hfk).2
    refine ⟨rfl, hstored, fun hsmall => ?_⟩
    rw [← jsAddOne_of_lt hsmall]
    exact hstored
  · intro h0 k hk
    obtain ⟨u', hf, _, _, hcase⟩ :=
      loginRun_wrong compare email (ps.take k) users session u hfind hunlocked (htake k)
    have hlk : (ps.take k).length = k := by rw [List.length_take]; omega
    refine ⟨u', hf, ?_⟩
    rcases hcase with ⟨hl, hn, _⟩ | ⟨_, hn⟩
    · exact ⟨hl, by omega⟩
    · omega

/-- Witness of C1: the fresh account `alice` and five requests with wrong
passwords. -/
theorem login_five_wrong_passwords_lock_witness :
    (∃ u', findOneByEmail
        (loginRun compareToy [alice] none "a@x.com" ["a", "b", "c", "d", "e"]).1 "a@x.com"
          = some u' ∧ u'._id = alice._id ∧ u'.isLocked = true) :=
  (login_five_wrong_passwords_lock compareToy [alice] none "a@x.com" alice
    ["a", "b", "c", "d", "e"] (by decide) (by decide) (by decide) (by decide)).1

/-- C1 as stated fails: on an unlocked account with one failed attempt on
record the fourth wrong password locks the account, and the fifth request is
answered with the locked-account page and leaves `failedLoginAttempts` at `5`. -/
theorem login_fifth_wrong_password_not_counted :
    findOneByEmail [aliceOneFailure] "a@x.com" = some aliceOneFailure ∧
    aliceOneFailure.isLocked = false ∧
    (loginRun rejectAll [aliceOneFailure] none "a@x.com" ["w1", "w2", "w3", "w4"])
      = ([aliceLocked], none) ∧
    (postLogin rejectAll [aliceLocked] none "a@x.com" "w5").response = accountLocked ∧
    (postLogin rejectAll [aliceLocked] none "a@x.com" "w5").response ≠ invalidCredentials ∧
    (postLogin rejectAll [aliceLocked] none "a@x.com" "w5").users = [aliceLocked] ∧
    aliceLocked.failedLoginAttempts ≠ 5 + 1 := by
  decide

/-- C2: a login request for a locked account, whatever the password and whatever
the verifier would say, is answered with the locked-account page, calls
`bcrypt.compare` not at all, leaves the session as it was and leaves the
collection unchanged; in particular the sixth request after five wrong passwords
on a fresh account is answered so, whatever its password. -/
theorem login_locked_rejected (compare : String → String → Option Bool)
    (users : List User) (session : Option Session) (email password : String) (u : User)
    (hfind : findOneByEmail users email = some u) :
    (u.isLocked = true →
      postLogin compare users session email password = ⟨users, session, accountLocked, []⟩) ∧
    (u.isLocked = false → u.failedLoginAttempts = 0 →
      ∀ ps : List String, ps.length = 5 → (∀ p ∈ ps, compare p u.password = some false) →
        postLogin compare (loginRun compare users session email ps).1
            (loginRun compare users session email ps).2 email password
          = ⟨(loginRun compare users session email ps).1,
              (loginRun compare users session email ps).2, accountLocked, []⟩ ∧
        (loginRun compare users session email ps).2 = session) := by
  refine ⟨fun hlocked => postLogin_locked compare session password hfind hlocked, ?_⟩
  intro hunlocked _ ps hlen hwrong
  obtain ⟨u', hf, _, _, hcase⟩ :=
    loginRun_wrong compare email ps users session u hfind hunlocked hwrong
  have hl : u'.isLocked = true := by
    rcases hcase with ⟨_, _, hlt⟩ | ⟨hl, _⟩
    · have := hlt (by omega); omega
    · exact hl
  exact ⟨postLogin_locked compare _ password hf hl,
    loginRun_wrong_session compare email ps users session u hfind hunlocked hwrong⟩

/-- Witness of C2: the correct password on a locked account, and the correct
password as sixth request after five wrong ones on the fresh account `alice`. -/
theorem login_locked_rejected_witness :
    compareToy "secret1" aliceLocked.password = some true ∧
    postLogin compareToy [aliceLocked] none "a@x.com" "secret1"
      = ⟨[aliceLocked], none, accountLocked, []⟩ ∧
    (postLogin compareToy (loginRun compareToy [alice] none "a@x.com" ["a", "b", "c", "d", "e"]).1
        (loginRun compareToy [alice] none "a@x.com" ["a", "b", "c", "d", "e"]).2
        "a@x.com" "secret1").response = accountLocked :=
  ⟨by decide,
    (login_locked_rejected compareToy [aliceLocked] none "a@x.com" "secret1" aliceLocked
      (by decide)).1 (by decide),
    congrArg LoginResult.response
      ((login_locked_rejected compareToy [alice] none "a@x.com" "secret1" alice
        (by decide)).2 (by decide) (by decide) ["a", "b", "c", "d", "e"] (by decide)
        (by decide)).1⟩

/-- C3: whenever the login handler ends in the success outcome (a redirect to a
landing page), whatever `failedLoginAttempts` was, the account found for the
email is stored with `failedLoginAttempts = 0` and unlocked afterwards, both
under its email and under its id, and the session carries its identity. -/
theorem login_success_resets_failedLoginAttempts (compare : String → String → Option Bool)
    (users : List User) (session : Option Session) (email password path : String)
    (hsuccess : (postLogin compare users session email password).response = .redirect path) :
    ∃ u, findOneByEmail users email = some u ∧
      compare password u.password = some true ∧
      findOneByEmail (postLogin compare users session email password).users email
        = some { u with failedLoginAttempts := 0, isLocked := false } ∧
      findById (postLogin compare users session email password).users u._id
        = some { u with failedLoginAttempts := 0, isLocked := false } ∧
      (postLogin compare users session email password).session
        = some { userId := u._id
                 user := { id := u._id, username := u.username, email := u.email,
                           role := u.role, profilePic := u.profilePic } } := by
  unfold postLogin at hsuccess ⊢
  cases hfind : findOneByEmail users email with
  | none => simp [hfind] at hsuccess
  | some u =>
    cases hlocked : u.isLocked with
    | true => simp [hfind, hlocked] at hsuccess
    | false =>
      cases hcmp : compare password u.password with
      | none => simp [hfind, hlocked, hcmp] at hsuccess
      | some b =>
        cases b with
        | false => simp [hfind, hlocked, hcmp] at hsuccess
        | true =>
          have hmem := findOneByEmail_mem hfind
          refine ⟨u, rfl, hcmp, ?_, ?_, ?_⟩
          · simpa [hlocked, hcmp] using
              findOneByEmail_save ({ u with failedLoginAttempts := 0, isLocked := false } : User)
                hfind rfl hmem.2
          · simpa [hlocked, hcmp] using
              findById_save ({ u with failedLoginAttempts := 0, isLocked := false } : User)
                hmem.1 rfl
          · simp [hlocked, hcmp]

/-- Witness of C3: the correct password on an account with four failed attempts
on record. -/
theorem login_success_resets_failedLoginAttempts_witness :
    ∃ u, findOneByEmail [{ alice with failedLoginAttempts := 4 }] "a@x.com" = some u ∧
      compareToy "secret1" u.password = some true ∧
      findOneByEmail
          (postLogin compareToy [{ alice with failedLoginAttempts := 4 }] none "a@x.com"
            "secret1").users "a@x.com"
        = some { u with failedLoginAttempts := 0, isLocked := false } ∧
      findById
          (postLogin compareToy [{ alice with failedLoginAttempts := 4 }] none "a@x.com"
            "secret1").users u._id
        = some { u with failedLoginAttempts := 0, isLocked := false } ∧
      (postLogin compareToy [{ alice with failedLoginAttempts := 4 }] none "a@x.com"
          "secret1").session
        = some { userId := u._id
                 user := { id := u._id, username := u.username, email := u.email,
                           role := u.role, profilePic := u.profilePic } } :=
  login_success_resets_failedLoginAttempts compareToy
    [{ alice with failedLoginAttempts := 4 }] none "a@x.com" "secret1" "/dashboard" (by decide)

/-! ## Role bootstrap -/

theorem postRegister_valid (hash : String → String) (users : List User) (newId : Nat)
    (body : RegisterBody) (file : Option String)
    (hfields : body.username ≠ "" ∧ body.email ≠ "" ∧ body.password ≠ "" ∧
      body.confirmPassword ≠ "")
    (hmatch : body.password = body.confirmPassword) (hlen : 6 ≤ jsLength body.password)
    (hnew : findOneByEmail users body.email = none) :
    postRegister hash users newId body file
      = (users ++ [{ _id := newId, username := body.username, email := body.email,
                     password := hash body.password,
                     profilePic := match file with
                       | some filename => "/uploads/" ++ filename
                       | none => "",
                     role := userRole users body.role }], .redirect "/login") := by
  obtain ⟨h1, h2, h3, h4⟩ := hfields
  have hlen' : ¬ jsLength body.password < 6 := by omega
  simp [postRegister, h1, h2, h3, h4, hmatch, hlen', hnew, insert]
  rw [← hmatch]; exact hlen

theorem findOneByEmail_append_new {users : List User} {email : String} {u : User}
    (hnew : findOneByEmail users email = none) (hemail : u.email = email) :
    findOneByEmail (users ++ [u]) email = some u := by
  unfold findOneByEmail at hnew ⊢
  simp [List.find?_append, hnew, hemail]

/-- C4: a valid registration (all fields present, passwords equal, at least six
UTF-16 code units, email not registered) stores exactly one new user and
succeeds; the stored role is `user` when the requested role is not `admin`,
`admin` when it is `admin` and the collection holds no admin, and `user` when
it is `admin` and an admin exists. -/
theorem register_role_resolution (hash : String → String) (users : List User) (newId : Nat)
    (body : RegisterBody) (file : Option String)
    (hfields : body.username ≠ "" ∧ body.email ≠ "" ∧ body.password ≠ "" ∧
      body.confirmPassword ≠ "")
    (hmatch : body.password = body.confirmPassword) (hlen : 6 ≤ jsLength body.password)
    (hnew : findOneByEmail users body.email = none) :
    ∃ newUser : User,
      postRegister hash users newId body file = (users ++ [newUser], .redirect "/login") ∧
      findOneByEmail (postRegister hash users newId body file).1 body.email = some newUser ∧
      newUser.username = body.username ∧ newUser.email = body.email ∧
      (body.role ≠ some "admin" → newUser.role = "user") ∧
      (body.role = some "admin" → (∀ v ∈ users, v.role ≠ "admin") → newUser.role = "admin") ∧
      (body.role = some "admin" → (∃ v ∈ users, v.role = "admin") → newUser.role = "user") := by
  have hreg := postRegister_valid hash users newId body file hfields hmatch hlen hnew
  refine ⟨_, hreg, ?_, rfl, rfl, ?_, ?_, ?_⟩
  · rw [hreg]; exact findOneByEmail_append_new hnew rfl
  · intro hrole; simp [userRole, hrole]
  · intro hrole hnone
    have : findOneAdmin users = none := by
      unfold findOneAdmin
      simpa [List.find?_eq_none] using hnone
    simp [userRole, hrole, this]
  · intro hrole ⟨v, hv, hvr⟩
    cases hadm : findOneAdmin users with
    | none =>
      unfold findOneAdmin at hadm
      have := (List.find?_eq_none.1 hadm) v hv
      simp [hvr] at this
    | some a => simp [userRole, hrole, hadm]

/-- Witness of C4: bob asks for the admin role while the admin alice exists. -/
theorem register_role_resolution_witness :
    ∃ newUser : User,
      postRegister hashToy [{ alice with role := "admin" }] 2 bobBody none
        = ([{ alice with role := "admin" }] ++ [newUser], .redirect "/login") ∧
      findOneByEmail (postRegister hashToy [{ alice with role := "admin" }] 2 bobBody none).1
        bobBody.email = some newUser ∧
      newUser.username = bobBody.username ∧ newUser.email = bobBody.email ∧
      (bobBody.role ≠ some "admin" → newUser.role = "user") ∧
      (bobBody.role = some "admin" →
        (∀ v ∈ [{ alice with role := "admin" }], v.role ≠ "admin") → newUser.role = "admin") ∧
      (bobBody.role = some "admin" →
        (∃ v ∈ [{ alice with role := "admin" }], v.role = "admin") → newUser.role = "user") :=
  register_role_resolution hashToy [{ alice with role := "admin" }] 2 bobBody none
    (by decide) (by decide) (by decide) (by decide)

/-- C10 (amended): starting from a collection without an admin in which neither
email is registered, registering alice with `role = "admin"` stores alice as
`admin`, and registering bob with `role = "admin"` afterwards stores bob as
`user`; registering alice with no role stores alice as `user`, and bob, who asks
for the admin role while there still is no admin, is then stored as `admin`. -/
theorem register_alice_then_bob (hash : String → String) (users : List User) (idA idB : Nat)
    (role : Option String) (hrole : role = some "admin" ∨ role = none)
    (hnoAdmin : findOneAdmin users = none)
    (hnewA : findOneByEmail users "a@x.com" = none)
    (hnewB : findOneByEmail users "b@x.com" = none) :
    ∃ a b : User,
      postRegister hash users idA (aliceBody role) none = (users ++ [a], .redirect "/login") ∧
      postRegister hash (users ++ [a]) idB bobBody none
        = (users ++ [a] ++ [b], .redirect "/login") ∧
      a.username = "alice" ∧ a.email = "a@x.com" ∧ b.username = "bob" ∧ b.email = "b@x.com" ∧
      (role = some "admin" → a.role = "admin" ∧ b.role = "user") ∧
      (role = none → a.role = "user" ∧ b.role = "admin") := by
  have hA := postRegister_valid hash users idA (aliceBody role) none
    (show "alice" ≠ "" ∧ "a@x.com" ≠ "" ∧ "secret1" ≠ "" ∧ "secret1" ≠ "" by decide) rfl
    (show 6 ≤ jsLength "secret1" by decide) hnewA
  have hnewB' : ∀ a : User, a.email = "a@x.com" →
      findOneByEmail (users ++ [a]) "b@x.com" = none := by
    intro a ha
    unfold findOneByEmail at hnewB ⊢
    simp [List.find?_append, hnewB, ha]
  have hB := postRegister_valid hash
    (users ++ [({ _id := idA, username := "alice", email := "a@x.com",
                  password := hash "secret1", profilePic := "",
                  role := userRole users role } : User)]) idB bobBody none
    (by decide) rfl (by decide) (hnewB' _ rfl)
  refine ⟨_, _, hA, hB, rfl, rfl, rfl, rfl, ?_, ?_⟩
  · intro h
    subst h
    have hfa : ∀ a : User, a.role = "admin" → findOneAdmin (users ++ [a]) = some a := by
      intro a ha
      unfold findOneAdmin at hnoAdmin ⊢
      simp [List.find?_append, hnoAdmin, ha]
    have h1 : userRole users (aliceBody (some "admin")).role = "admin" := by
      simp [userRole, aliceBody, hnoAdmin]
    refine ⟨h1, ?_⟩
    simp only [userRole, bobBody, if_true]
    rw [hfa _ h1]
  · intro h
    subst h
    have h1 : userRole users (aliceBody none).role = "user" := by
      simp [userRole, aliceBody]
    refine ⟨h1, ?_⟩
    have hfa : ∀ a : User, a.role = "user" → findOneAdmin (users ++ [a]) = none := by
      intro a ha
      unfold findOneAdmin at hnoAdmin ⊢
      simp [List.find?_append, hnoAdmin, ha]
    simp only [userRole, bobBody, if_true]
    rw [hfa _ h1]

/-- Witness of C10: the empty collection and the admin role requested by alice. -/
theorem register_alice_then_bob_witness :
    ∃ a b : User,
      postRegister hashToy [] 1 (aliceBody (some "admin")) none
        = ([] ++ [a], .redirect "/login") ∧
      postRegister hashToy ([] ++ [a]) 2 bobBody none = ([] ++ [a] ++ [b], .redirect "/login") ∧
      a.username = "alice" ∧ a.email = "a@x.com" ∧ b.username = "bob" ∧ b.email = "b@x.com" ∧
      (some "admin" = some "admin" → a.role = "admin" ∧ b.role = "user") ∧
      (some "admin" = none → a.role = "user" ∧ b.role = "admin") :=
  register_alice_then_bob hashToy [] 1 2 (some "admin") (Or.inl rfl) (by decide) (by decide)
    (by decide)

/-- C10 as stated fails: with no role in the request alice is stored with role
`user`, and bob, registered afterwards with `role = "admin"`, is stored with role
`admin`. -/
theorem register_alice_without_role_is_user :
    postRegister hashToy [] 1 (aliceBody none) none = ([alice], .redirect "/login") ∧
    alice.role = "user" ∧ alice.role ≠ "admin" ∧
    postRegister hashToy [alice] 2 bobBody none
      = ([alice, { _id := 2, username := "bob", email := "b@x.com", password := "hash:secret2",
                   profilePic := "", role := "admin" }], .redirect "/login") := by
  decide

/-! ## Note ownership -/

theorem findOneAndUpdate_filter (filter keep : Note → Bool) (title content : String)
    (hdisjoint : ∀ n, filter n = true → keep n = false)
    (hkeep : ∀ n, keep { n with title := title, content := content } = keep n) :
    ∀ notes : List Note,
      (findOneAndUpdate filter title content notes).filter keep = notes.filter keep := by
  intro notes
  induction notes with
  | nil => rfl
  | cons n ns ih =>
    by_cases hn : filter n = true
    · have h1 := hdisjoint n hn
      have h2 : keep { n with title := title, content := content } = false := by
        rw [hkeep]; exact h1
      simp [findOneAndUpdate, hn, List.filter_cons, h1, h2]
    · simp [findOneAndUpdate, hn, List.filter_cons, ih]

theorem findOneAndUpdate_none (filter : Note → Bool) (title content : String) :
    ∀ notes : List Note, (∀ n ∈ notes, filter n = false) →
      findOneAndUpdate filter title content notes = notes := by
  intro notes
  induction notes with
  | nil => intro _; rfl
  | cons n ns ih =>
    intro h
    have hn : filter n = false := h n (List.mem_cons_self _ _)
    simp [findOneAndUpdate, hn, ih (fun m hm => h m (List.mem_cons_of_mem _ hm))]

theorem findOneAndDelete_filter (filter keep : Note → Bool)
    (hdisjoint : ∀ n, filter n = true → keep n = false) :
    ∀ notes : List Note, (findOneAndDelete filter notes).2.filter keep = notes.filter keep := by
  intro notes
  induction notes with
  | nil => rfl
  | cons n ns ih =>
    by_cases hn : filter n = true
    · simp [findOneAndDelete, hn, List.filter_cons, hdisjoint n hn]
    · simp [findOneAndDelete, hn, List.filter_cons, ih]

theorem findOneAndDelete_none (filter : Note → Bool) :
    ∀ notes : List Note, (∀ n ∈ notes, filter n = false) →
      findOneAndDelete filter notes = (none, notes) := by
  intro notes
  induction notes with
  | nil => intro _; rfl
  | cons n ns ih =>
    intro h
    have hn : filter n = false := h n (List.mem_cons_self _ _)
    simp [findOneAndDelete, hn, ih (fun m hm => h m (List.mem_cons_of_mem _ hm))]

theorem findOneAndDelete_some (filter : Note → Bool) :
    ∀ (notes : List Note) (d : Note), (findOneAndDelete filter notes).1 = some d →
      d ∈ notes ∧ filter d = true ∧ List.Perm notes (d :: (findOneAndDelete filter notes).2) := by
  intro notes
  induction notes with
  | nil => intro d h; simp [findOneAndDelete] at h
  | cons n ns ih =>
    intro d h
    by_cases hn : filter n = true
    · simp only [findOneAndDelete, hn, if_true] at h ⊢
      have hd : n = d := Option.some.inj h
      subst hd
      exact ⟨List.mem_cons_self _ _, hn, List.Perm.refl _⟩
    · simp only [findOneAndDelete, hn] at h ⊢
      obtain ⟨hmem, hf, hperm⟩ := ih d h
      exact ⟨List.mem_cons_of_mem _ hmem, hf,
        (List.Perm.cons n hperm).trans (List.Perm.swap d n _)⟩

theorem findOneAndDelete_fst_none (filter : Note → Bool) :
    ∀ notes : List Note, (findOneAndDelete filter notes).1 = none →
      ∀ n ∈ notes, filter n = false := by
  intro notes
  induction notes with
  | nil => intro _ n hn; simp at hn
  | cons m ms ih =>
    intro h n hn
    by_cases hm : filter m = true
    · simp [findOneAndDelete, hm] at h
    · simp only [findOneAndDelete, hm] at h
      rcases List.mem_cons.1 hn with rfl | hn'
      · simpa using hm
      · exact ih h n hn'

theorem deleteNotes_fst (notes : List Note) (sess : Session) (id : Nat) :
    (deleteNotes notes (some sess) (some id)).1
      = (findOneAndDelete (fun n => n._id == id && n.userId == sess.userId) notes).2 := by
  simp only [deleteNotes, ensureAuthenticated]
  split <;> simp_all

theorem deleteNotes_snd (notes : List Note) (sess : Session) (id : Nat) :
    (deleteNotes notes (some sess) (some id)).2
      = if (findOneAndDelete (fun n => n._id == id && n.userId == sess.userId) notes).1.isSome
        then deleted else notFoundOrForbidden := by
  simp only [deleteNotes, ensureAuthenticated]
  split <;> simp_all [deleted, notFoundOrForbidden]

theorem deleteNotes_malformed (notes : List Note) (sess : Session) :
    deleteNotes notes (some sess) none = (notes, errorDeleting) := rfl

/-- C5: for every note collection, every requester `sess` (whatever the role of
the session, hence every non-admin requester) and every route parameter `id`
(the id of a note of another user, any other ObjectId, or no ObjectId at all),
the list handler returns exactly the notes whose `userId` is the requester, the
edit form shows only such a note, and the update and delete handlers answer
without a note in the response and leave the notes of every other user in the
collection as they were. -/
theorem notes_of_other_users_untouched (notes : List Note) (sess : Session) (id : IdParam)
    (title content : String) :
    (getNotes notes (some sess)
        = .renderNotes (notes.filter (fun n => n.userId == sess.userId)) ∧
      ∀ n ∈ notes.filter (fun n => n.userId == sess.userId), n.userId = sess.userId) ∧
    (∀ note, getNotesEdit notes (some sess) id = .renderEdit note →
      note ∈ notes ∧ note.userId = sess.userId) ∧
    ((postNotesEdit notes (some sess) id title content).1.filter
        (fun n => n.userId != sess.userId) = notes.filter (fun n => n.userId != sess.userId) ∧
      ((postNotesEdit notes (some sess) id title content).2 = .redirect "/notes" ∨
        (postNotesEdit notes (some sess) id title content).2
          = .render "notes/edit" (some "Title and content are required") ∨
        (id = none ∧ (postNotesEdit notes (some sess) id title content).2
          = .render "notes/edit" (some "Error updating note")))) ∧
    ((deleteNotes notes (some sess) id).1.filter (fun n => n.userId != sess.userId)
        = notes.filter (fun n => n.userId != sess.userId) ∧
      ((deleteNotes notes (some sess) id).2 = notFoundOrForbidden ∨
        (deleteNotes notes (some sess) id).2 = deleted ∨
        (id = none ∧ (deleteNotes notes (some sess) id).2 = errorDeleting))) ∧
    (∀ n, n.userId ≠ sess.userId →
      ((n ∈ (postNotesEdit notes (some sess) id title content).1 ↔ n ∈ notes) ∧
        (n ∈ (deleteNotes notes (some sess) id).1 ↔ n ∈ notes))) := by
  have hdisjoint : ∀ i : Nat, ∀ n : Note, (n._id == i && n.userId == sess.userId) = true →
      (n.userId != sess.userId) = false := by
    intro i n hn
    simp at hn
    simp [hn.2]
  have hupdate : (postNotesEdit notes (some sess) id title content).1.filter
      (fun n => n.userId != sess.userId) = notes.filter (fun n => n.userId != sess.userId) := by
    unfold postNotesEdit ensureAuthenticated
    by_cases hempty : title = "" ∨ content = ""
    · simp only [hempty, if_true]
    · simp only [hempty, if_false]
      cases id with
      | none => rfl
      | some i => exact findOneAndUpdate_filter _ _ title content (hdisjoint i) (fun _ => rfl) notes
  have hdelete : (deleteNotes notes (some sess) id).1.filter (fun n => n.userId != sess.userId)
      = notes.filter (fun n => n.userId != sess.userId) := by
    cases id with
    | none => rfl
    | some i =>
      rw [deleteNotes_fst]
      exact findOneAndDelete_filter (fun n => n._id == i && n.userId == sess.userId)
        (fun n => n.userId != sess.userId) (hdisjoint i) notes
  refine ⟨⟨rfl, ?_⟩, ?_, ⟨hupdate, ?_⟩, ⟨hdelete, ?_⟩, ?_⟩
  · intro n hn
    simpa using (List.mem_filter.1 hn).2
  · intro note h
    cases id with
    | none => simp [getNotesEdit, ensureAuthenticated] at h
    | some i =>
      simp only [getNotesEdit, ensureAuthenticated] at h
      cases hfind : notes.find? (fun n => n._id == i && n.userId == sess.userId) with
      | none => simp [hfind] at h
      | some found =>
        simp only [hfind, Response.renderEdit.injEq] at h
        subst h
        have := List.find?_some hfind
        simp at this
        exact ⟨List.mem_of_find?_eq_some hfind, this.2⟩
  · unfold postNotesEdit ensureAuthenticated
    by_cases hempty : title = "" ∨ content = ""
    · simp only [hempty, if_true]; exact Or.inr (Or.inl trivial)
    · simp only [hempty, if_false]
      cases id with
      | none => exact Or.inr (Or.inr ⟨rfl, rfl⟩)
      | some i => exact Or.inl rfl
  · cases id with
    | none => exact Or.inr (Or.inr ⟨rfl, rfl⟩)
    | some i =>
      rw [deleteNotes_snd]
      split
      · exact Or.inr (Or.inl rfl)
      · exact Or.inl rfl
  · intro n hn
    constructor
    · have h1 : n ∈ (postNotesEdit notes (some sess) id title content).1.filter
          (fun n => n.userId != sess.userId) ↔ n ∈ notes.filter (fun n => n.userId != sess.userId) := by
        rw [hupdate]
      simpa [List.mem_filter, hn] using h1
    · have h1 : n ∈ (deleteNotes notes (some sess) id).1.filter
          (fun n => n.userId != sess.userId) ↔ n ∈ notes.filter (fun n => n.userId != sess.userId) := by
        rw [hdelete]
      simpa [List.mem_filter, hn] using h1

/-- C7 (amended): for every requester, `DELETE /notes/:id` on an ObjectId that
matches no note and on the id of an existing note that the requester does not
own give the same answer, status 404 with `success = false` and the same
message, and leave the collection as it was; a parameter that is no ObjectId is
answered with status 500 and `Error deleting note`, the collection unchanged;
the success answer is given only when a note with this id and this owner was
removed from the collection. -/
theorem delete_missing_and_foreign_indistinguishable (notes : List Note) (sess : Session) :
    (∀ missing : Nat, (∀ n ∈ notes, n._id ≠ missing) →
      deleteNotes notes (some sess) (some missing) = (notes, notFoundOrForbidden)) ∧
    (∀ foreign : Nat, (∃ n ∈ notes, n._id = foreign) →
      (∀ n ∈ notes, n._id = foreign → n.userId ≠ sess.userId) →
      deleteNotes notes (some sess) (some foreign) = (notes, notFoundOrForbidden)) ∧
    deleteNotes notes (some sess) none = (notes, errorDeleting) ∧
    (∀ id : IdParam, (deleteNotes notes (some sess) id).2 = deleted →
      ∃ i : Nat, id = some i ∧ ∃ d ∈ notes, d._id = i ∧ d.userId = sess.userId ∧
        List.Perm notes (d :: (deleteNotes notes (some sess) id).1)) ∧
    notFoundOrForbidden = .json 404 false "Note not found or you don\x27t have permission" ∧
    errorDeleting = .json 500 false "Error deleting note" := by
  have hnone : ∀ id : Nat, (∀ n ∈ notes, n._id = id → n.userId ≠ sess.userId) →
      deleteNotes notes (some sess) (some id) = (notes, notFoundOrForbidden) := by
    intro id h
    have hf : ∀ n ∈ notes, (n._id == id && n.userId == sess.userId) = false := by
      intro n hn
      by_cases hid : n._id = id
      · simp [hid, h n hn hid]
      · simp [hid]
    simp [deleteNotes, ensureAuthenticated, findOneAndDelete_none _ notes hf, notFoundOrForbidden]
  refine ⟨?_, ?_, rfl, ?_, rfl, rfl⟩
  · intro missing h
    exact hnone missing (fun n hn hid => absurd hid (h n hn))
  · intro foreign _ h
    exact hnone foreign h
  · intro id h
    cases id with
    | none => simp [deleteNotes_malformed, errorDeleting, deleted] at h
    | some i =>
      refine ⟨i, rfl, ?_⟩
      rw [deleteNotes_snd] at h
      rw [deleteNotes_fst]
      cases hd : (findOneAndDelete (fun n => n._id == i && n.userId == sess.userId) notes).1 with
      | none => simp [hd, deleted, notFoundOrForbidden] at h
      | some d =>
        obtain ⟨hmem, hf, hperm⟩ := findOneAndDelete_some _ notes d hd
        simp at hf
        exact ⟨d, hmem, hf.1, hf.2, hperm⟩

/-- Witness of C7: user `3` deletes a missing id and the id of the note of
user `2`. -/
theorem delete_missing_and_foreign_indistinguishable_witness :
    deleteNotes [noteOfTwo, noteOfThree] (some (sessionOf 3 "user")) (some 99)
      = ([noteOfTwo, noteOfThree], notFoundOrForbidden) ∧
    deleteNotes [noteOfTwo, noteOfThree] (some (sessionOf 3 "user")) (some 10)
      = ([noteOfTwo, noteOfThree], notFoundOrForbidden) ∧
    (∃ i : Nat, some 11 = some i ∧
      ∃ d ∈ [noteOfTwo, noteOfThree], d._id = i ∧ d.userId = (sessionOf 3 "user").userId ∧
        List.Perm [noteOfTwo, noteOfThree]
          (d :: (deleteNotes [noteOfTwo, noteOfThree] (some (sessionOf 3 "user")) (some 11)).1)) :=
  ⟨(delete_missing_and_foreign_indistinguishable [noteOfTwo, noteOfThree]
      (sessionOf 3 "user")).1 99 (by decide),
    (delete_missing_and_foreign_indistinguishable [noteOfTwo, noteOfThree]
      (sessionOf 3 "user")).2.1 10 (by decide) (by decide),
    (delete_missing_and_foreign_indistinguishable [noteOfTwo, noteOfThree]
      (sessionOf 3 "user")).2.2.2.1 (some 11) (by decide)⟩

/-- C7 as stated fails: a route parameter that is no ObjectId matches no note,
and the delete handler answers it with status 500 and `Error deleting note`, not
with the 404 answer that an ObjectId matching no note receives. -/
theorem delete_malformed_id_is_server_error :
    (∀ n ∈ [noteOfTwo, noteOfThree], (none : IdParam) ≠ some n._id) ∧
    deleteNotes [noteOfTwo, noteOfThree] (some (sessionOf 3 "user")) none
      = ([noteOfTwo, noteOfThree], .json 500 false "Error deleting note") ∧
    (deleteNotes [noteOfTwo, noteOfThree] (some (sessionOf 3 "user")) none).2
      ≠ notFoundOrForbidden ∧
    deleteNotes [noteOfTwo, noteOfThree] (some (sessionOf 3 "user")) (some 99)
      = ([noteOfTwo, noteOfThree], notFoundOrForbidden) := by
  decide

/-- Witness of C5: user `3`, not an admin, lists the notes and tries to edit, to
update and to delete the note of user `2`. -/
theorem notes_of_other_users_untouched_witness :
    getNotes [noteOfTwo, noteOfThree] (some (sessionOf 3 "user")) = .renderNotes [noteOfThree] ∧
    getNotesEdit [noteOfTwo, noteOfThree] (some (sessionOf 3 "user")) (some 10)
      = .redirect "/notes" ∧
    (noteOfTwo ∈ (postNotesEdit [noteOfTwo, noteOfThree] (some (sessionOf 3 "user")) (some 10)
        "x" "y").1 ∧
      noteOfTwo ∈ (deleteNotes [noteOfTwo, noteOfThree] (some (sessionOf 3 "user"))
        (some 10)).1) :=
  ⟨by decide, by decide,
    ((notes_of_other_users_untouched [noteOfTwo, noteOfThree] (sessionOf 3 "user") (some 10)
        "x" "y").2.2.2.2 noteOfTwo (by decide)).1.2 (by decide),
    ((notes_of_other_users_untouched [noteOfTwo, noteOfThree] (sessionOf 3 "user") (some 10)
        "x" "y").2.2.2.2 noteOfTwo (by decide)).2.2 (by decide)⟩

theorem findOneAndDelete_unique (id : Nat) :
    ∀ notes : List Note, (notes.map (fun n => n._id)).Nodup →
      (findOneAndDelete (fun n => n._id == id) notes).2
        = notes.filter (fun n => n._id != id) := by
  intro notes
  induction notes with
  | nil => intro _; rfl
  | cons n ns ih =>
    intro hnodup
    rw [List.map_cons, List.nodup_cons] at hnodup
    by_cases hn : n._id = id
    · have hrest : ∀ m ∈ ns, (m._id != id) = true := by
        intro m hm
        have : m._id ≠ n._id := fun h => hnodup.1 (h ▸ List.mem_map_of_mem (fun n => n._id) hm)
        simpa [← hn] using this
      simp [findOneAndDelete, hn, List.filter_cons, List.filter_eq_self.2 hrest]
    · simp [findOneAndDelete, hn, List.filter_cons, ih hnodup.2]

theorem findOneAndUpdate_unique (id owner : Nat) (title content : String) :
    ∀ notes : List Note, (notes.map (fun n => n._id)).Nodup →
      (∀ n ∈ notes, n._id = id → n.userId = owner) →
      findOneAndUpdate (fun n => n._id == id && n.userId == owner) title content notes
        = notes.map (fun n =>
            if n._id = id then { n with title := title, content := content } else n) := by
  intro notes
  induction notes with
  | nil => intro _ _; rfl
  | cons n ns ih =>
    intro hnodup howner
    rw [List.map_cons, List.nodup_cons] at hnodup
    by_cases hn : n._id = id
    · have hrest : ∀ m ∈ ns, ¬ m._id = id := by
        intro m hm h
        exact hnodup.1 (by rw [hn, ← h]; exact List.mem_map_of_mem (fun n => n._id) hm)
      have hmap : ns.map (fun n =>
          if n._id = id then { n with title := title, content := content } else n) = ns := by
        conv_rhs => rw [← List.map_id ns]
        exact List.map_congr_left (fun m hm => by simp [hrest m hm])
      have ho : n.userId = owner := howner n (List.mem_cons_self _ _) hn
      simp [findOneAndUpdate, hn, ho, hmap]
    · simp [findOneAndUpdate, hn, ih hnodup.2
        (fun m hm => howner m (List.mem_cons_of_mem _ hm))]

/-- C6 (amended): for every existing note `N` and every requester whose session
role is `admin`, whether or not the requester owns `N`, the admin delete
(`DELETE /admin/delete-note/:id`) removes `N` from the collection, keeps every
other note and reports success; the update (`POST /notes/:id/edit`) with
non-empty values sets title and content of `N` when the requester owns `N`, and
leaves the collection unchanged when the requester does not own `N`. -/
theorem admin_delete_any_update_own (notes : List Note) (sess : Session) (N : Note)
    (title content : String)
    (hN : N ∈ notes) (hunique : (notes.map (fun n => n._id)).Nodup)
    (hadmin : sess.user.role = "admin") (htitle : title ≠ "") (hcontent : content ≠ "") :
    (deleteAdminDeleteNote notes (some sess) (some N._id)
        = (notes.filter (fun n => n._id != N._id), deleted) ∧
      N ∉ (deleteAdminDeleteNote notes (some sess) (some N._id)).1 ∧
      ∀ m ∈ notes, m ≠ N → m ∈ (deleteAdminDeleteNote notes (some sess) (some N._id)).1) ∧
    (N.userId = sess.userId →
      postNotesEdit notes (some sess) (some N._id) title content
        = (notes.map (fun n =>
            if n._id = N._id then { n with title := title, content := content } else n),
          .redirect "/notes") ∧
      { N with title := title, content := content }
        ∈ (postNotesEdit notes (some sess) (some N._id) title content).1) ∧
    (N.userId ≠ sess.userId →
      postNotesEdit notes (some sess) (some N._id) title content = (notes, .redirect "/notes")) := by
  have hsame : ∀ m ∈ notes, m._id = N._id → m = N := by
    intro m hm hid
    exact List.inj_on_of_nodup_map hunique hm hN hid
  have hdel : deleteAdminDeleteNote notes (some sess) (some N._id)
      = (notes.filter (fun n => n._id != N._id), deleted) := by
    simp [deleteAdminDeleteNote, ensureAuthenticated, isAdmin, hadmin,
      findOneAndDelete_unique N._id notes hunique, deleted]
  have hedit : ¬ (title = "" ∨ content = "") := by simp [htitle, hcontent]
  refine ⟨⟨hdel, ?_, ?_⟩, ?_, ?_⟩
  · rw [hdel]; simp [List.mem_filter]
  · intro m hm hne
    rw [hdel]
    have : m._id ≠ N._id := fun h => hne (hsame m hm h)
    simp [List.mem_filter, hm, this]
  · intro hown
    have h := findOneAndUpdate_unique N._id sess.userId title content notes hunique
      (fun m hm hid => by rw [hsame m hm hid]; exact hown)
    have hpost : postNotesEdit notes (some sess) (some N._id) title content
        = (notes.map (fun n =>
            if n._id = N._id then { n with title := title, content := content } else n),
          .redirect "/notes") := by
      simp only [postNotesEdit, ensureAuthenticated, hedit, if_false, h]
    refine ⟨hpost, ?_⟩
    rw [hpost]
    exact List.mem_map.2 ⟨N, hN, by simp⟩
  · intro hother
    have hf : ∀ n ∈ notes, (n._id == N._id && n.userId == sess.userId) = false := by
      intro n hn
      by_cases hid : n._id = N._id
      · rw [hsame n hn hid]; simp [hother]
      · simp [hid]
    simp only [postNotesEdit, ensureAuthenticated, hedit, if_false,
      findOneAndUpdate_none _ title content notes hf]

/-- Witness of C6: the admin `1` deletes the note of user `2`. -/
theorem admin_delete_any_update_own_witness :
    deleteAdminDeleteNote [noteOfTwo, noteOfThree] (some (sessionOf 1 "admin"))
      (some noteOfTwo._id)
      = ([noteOfTwo, noteOfThree].filter (fun n => n._id != noteOfTwo._id), deleted) ∧
    noteOfTwo ∉
      (deleteAdminDeleteNote [noteOfTwo, noteOfThree] (some (sessionOf 1 "admin"))
        (some noteOfTwo._id)).1 ∧
    ∀ m ∈ [noteOfTwo, noteOfThree], m ≠ noteOfTwo →
      m ∈ (deleteAdminDeleteNote [noteOfTwo, noteOfThree] (some (sessionOf 1 "admin"))
        (some noteOfTwo._id)).1 :=
  (admin_delete_any_update_own [noteOfTwo, noteOfThree] (sessionOf 1 "admin") noteOfTwo
    "new title" "new content" (by decide) (by decide) (by decide) (by decide) (by decide)).1

/-- C6 as stated fails: the update of an admin on a note of another user leaves
the note as it was. -/
theorem admin_update_of_foreign_note_ignored :
    (sessionOf 1 "admin").user.role = "admin" ∧ noteOfTwo ∈ [noteOfTwo, noteOfThree] ∧
    postNotesEdit [noteOfTwo, noteOfThree] (some (sessionOf 1 "admin")) (some noteOfTwo._id)
        "new title" "new content"
      = ([noteOfTwo, noteOfThree], .redirect "/notes") ∧
    noteOfTwo.title ≠ "new title" ∧ noteOfTwo.content ≠ "new content" := by
  decide

/-! ## The lockout invariant -/

theorem mem_save {users : List User} {u v : User} (h : v ∈ save users u) :
    v ∈ users ∨ v = u := by
  induction users with
  | nil => simp [save] at h
  | cons x xs ih =>
    by_cases hx : x._id = u._id
    · simp only [save, hx, if_true, List.mem_cons] at h
      rcases h with h | h
      · exact Or.inr h
      · exact Or.inl (List.mem_cons_of_mem _ h)
    · simp only [save, hx, if_false, List.mem_cons] at h
      rcases h with h | h
      · exact Or.inl (h ▸ List.mem_cons_self _ _)
      · rcases ih h with h' | h'
        · exact Or.inl (List.mem_cons_of_mem _ h')
        · exact Or.inr h'

theorem lockoutInvariant_save {users : List User} {u : User} (hinv : lockoutInvariant users)
    (hu : u.isLocked = true → 5 ≤ u.failedLoginAttempts) : lockoutInvariant (save users u) := by
  intro v hv
  rcases mem_save hv with h | h
  · exact hinv v h
  · rw [h]; exact hu

theorem findById_mem {users : List User} {id : Nat} {u : User}
    (hfind : findById users id = some u) : u ∈ users :=
  List.mem_of_find?_eq_some hfind

theorem lockoutInvariant_postRegister (hash : String → String) (users : List User) (newId : Nat)
    (body : RegisterBody) (file : Option String) (hinv : lockoutInvariant users) :
    lockoutInvariant (postRegister hash users newId body file).1 := by
  unfold postRegister
  simp only
  split
  · exact hinv
  · split
    · exact hinv
    · split
      · exact hinv
      · split
        · exact hinv
        · intro v hv
          simp only [insert, List.mem_append, List.mem_singleton] at hv
          rcases hv with hv | hv
          · exact hinv v hv
          · intro hl; rw [hv] at hl; simp at hl

theorem lockoutInvariant_postLogin (compare : String → String → Option Bool)
    (users : List User) (session : Option Session) (email password : String)
    (hinv : lockoutInvariant users) :
    lockoutInvariant (postLogin compare users session email password).users := by
  unfold postLogin
  cases hfind : findOneByEmail users email with
  | none => exact hinv
  | some u =>
    cases hlocked : u.isLocked with
    | true => simpa [hlocked] using hinv
    | false =>
      cases hcmp : compare password u.password with
      | none => simpa [hlocked, hcmp] using hinv
      | some b =>
        cases b with
        | false =>
          simp only [hlocked, hcmp, Bool.false_eq_true, if_false]
          apply lockoutInvariant_save hinv
          split
          · intro _; assumption
          · intro hl; simp [hlocked] at hl
        | true =>
          simp only [hlocked, hcmp, Bool.false_eq_true, if_false]
          exact lockoutInvariant_save hinv (by simp)

theorem lockoutInvariant_postUsersProfile (compare : String → String → Option Bool)
    (hash : String → String) (users : List User) (session : Option Session)
    (body : ProfileBody) (file : Option String) (hinv : lockoutInvariant users) :
    lockoutInvariant (postUsersProfile compare hash users session body file).1 := by
  unfold postUsersProfile ensureAuthenticated
  cases session with
  | none => exact hinv
  | some sess =>
    simp only
    split
    · exact hinv
    · cases hfind : findById users sess.userId with
      | none => exact hinv
      | some u =>
        have hu := hinv u (findById_mem hfind)
        simp only
        split
        · split
          · exact hinv
          · split
            · exact hinv
            · exact hinv
            · split
              · exact hinv
              · exact lockoutInvariant_save hinv hu
        · exact lockoutInvariant_save hinv hu

theorem lockoutInvariant_postEditProfile (users : List User) (session : Option Session)
    (username email : String) (file : Option String) (hinv : lockoutInvariant users) :
    lockoutInvariant (postEditProfile users session username email file).1 := by
  unfold postEditProfile ensureAuthenticated
  cases session with
  | none => exact hinv
  | some sess =>
    simp only
    split
    · exact hinv
    · cases hfind : findById users sess.userId with
      | none => exact hinv
      | some u => exact lockoutInvariant_save hinv (hinv u (findById_mem hfind))

/-- C9: `isLocked = true` implies `failedLoginAttempts ≥ 5` for every user of
every reachable user collection: a newly registered user is stored with
`failedLoginAttempts = 0` and `isLocked = false`, and registration, login (failed,
successful or rejected for a locked account), profile update and edit-profile
preserve the predicate from every collection that satisfies it. -/
theorem lockout_invariant_reachable (compare : String → String → Option Bool)
    (hash : String → String) :
    (∀ users, Reachable compare hash users → lockoutInvariant users) ∧
    (∀ users newId body file newUser,
      (postRegister hash users newId body file).1 = users ++ [newUser] →
      newUser.failedLoginAttempts = 0 ∧ newUser.isLocked = false) ∧
    (∀ users, lockoutInvariant users →
      (∀ newId body file, lockoutInvariant (postRegister hash users newId body file).1) ∧
      (∀ session email password,
        lockoutInvariant (postLogin compare users session email password).users) ∧
      (∀ session body file,
        lockoutInvariant (postUsersProfile compare hash users session body file).1) ∧
      (∀ session username email file,
        lockoutInvariant (postEditProfile users session username email file).1)) := by
  have hpres : ∀ users, lockoutInvariant users →
      (∀ newId body file, lockoutInvariant (postRegister hash users newId body file).1) ∧
      (∀ session email password,
        lockoutInvariant (postLogin compare users session email password).users) ∧
      (∀ session body file,
        lockoutInvariant (postUsersProfile compare hash users session body file).1) ∧
      (∀ session username email file,
        lockoutInvariant (postEditProfile users session username email file).1) :=
    fun users hinv =>
      ⟨fun newId body file => lockoutInvariant_postRegister hash users newId body file hinv,
        fun session email password =>
          lockoutInvariant_postLogin compare users session email password hinv,
        fun session body file =>
          lockoutInvariant_postUsersProfile compare hash users session body file hinv,
        fun session username email file =>
          lockoutInvariant_postEditProfile users session username email file hinv⟩
  refine ⟨?_, ?_, hpres⟩
  · intro users hreach
    induction hreach with
    | empty => intro u hu; simp at hu
    | register newId body file _ ih => exact (hpres _ ih).1 newId body file
    | login session email password _ ih => exact (hpres _ ih).2.1 session email password
    | profile session body file _ ih => exact (hpres _ ih).2.2.1 session body file
    | editProfile session username email file _ ih =>
      exact (hpres _ ih).2.2.2 session username email file
  · intro users newId body file newUser h
    unfold postRegister at h
    simp only at h
    split at h
    · simp at h
    · split at h
      · simp at h
      · split at h
        · simp at h
        · split at h
          · simp at h
          · simp only [insert, List.append_cancel_left_eq, List.cons.injEq, and_true] at h
            rw [← h]
            exact ⟨rfl, rfl⟩

/-- Witness of C9: the collection after the registration of alice and five
wrong passwords is reachable, and its one account is locked with five failed
attempts on record. -/
theorem lockout_invariant_reachable_witness :
    lockoutInvariant
      (loginRun compareToy (postRegister hashToy [] 1 (aliceBody none) none).1 none "a@x.com"
        ["a", "b", "c", "d", "e"]).1 ∧
    (loginRun compareToy (postRegister hashToy [] 1 (aliceBody none) none).1 none "a@x.com"
        ["a", "b", "c", "d", "e"]).1 = [aliceLocked] :=
  ⟨(lockout_invariant_reachable compareToy hashToy).1 _
    (.login none "a@x.com" "e" (.login none "a@x.com" "d" (.login none "a@x.com" "c"
      (.login none "a@x.com" "b" (.login none "a@x.com" "a"
        (.register 1 (aliceBody none) none .empty)))))),
    by decide⟩

/-! ## Top authors -/

theorem group_append (notes : List Note) (n : Note) :
    group (notes ++ [n]) = groupStep (group notes) n := by
  simp [group, List.foldl_append]

theorem group_invariant (notes : List Note) :
    ((group notes).map (fun g => g._id)).Nodup ∧
    (∀ g ∈ group notes,
      g.postCount = notes.countP (fun n => n.userId == g._id) ∧ 0 < g.postCount) ∧
    (∀ n ∈ notes, ∃ g ∈ group notes, g._id = n.userId) := by
  induction notes using List.reverseRecOn with
  | nil => simp [group]
  | append_singleton ns n ih =>
    obtain ⟨hnodup, hcount, hcover⟩ := ih
    rw [group_append]
    unfold groupStep
    by_cases hany : (group ns).any (fun g => g._id == n.userId) = true
    · rw [if_pos hany]
      have hids : ((group ns).map (fun g =>
          if g._id = n.userId then { g with postCount := g.postCount + 1 } else g)).map
            (fun g => g._id) = (group ns).map (fun g => g._id) := by
        rw [List.map_map]
        apply List.map_congr_left
        intro g _
        by_cases hg : g._id = n.userId <;> simp [hg]
      refine ⟨by rw [hids]; exact hnodup, ?_, ?_⟩
      · intro g' hg'
        obtain ⟨g, hg, rfl⟩ := List.mem_map.1 hg'
        obtain ⟨hc, hpos⟩ := hcount g hg
        by_cases hgn : g._id = n.userId
        · simp [hgn, List.countP_append, List.countP_cons] at hc ⊢
          exact hc
        · have hne : ¬ n.userId = g._id := fun h => hgn h.symm
          simp [hgn, hne, List.countP_append, List.countP_cons] at hc ⊢
          exact ⟨hc, hpos⟩
      · intro m hm
        rcases List.mem_append.1 hm with hm | hm
        · obtain ⟨g, hg, hgid⟩ := hcover m hm
          refine ⟨_, List.mem_map.2 ⟨g, hg, rfl⟩, ?_⟩
          show (if g._id = n.userId then
            ({ g with postCount := g.postCount + 1 } : AuthorGroup) else g)._id = m.userId
          split <;> exact hgid
        · have hmn : m = n := by simpa using hm
          subst hmn
          obtain ⟨g, hg, hgid⟩ := List.any_eq_true.1 hany
          have hgid' : g._id = m.userId := by simpa using hgid
          exact ⟨_, List.mem_map.2 ⟨g, hg, rfl⟩, by simp [hgid']⟩
    · rw [if_neg hany]
      have hnone : ∀ g ∈ group ns, g._id ≠ n.userId := by
        intro g hg h
        exact hany (List.any_eq_true.2 ⟨g, hg, by simpa using h⟩)
      have hfresh : ns.countP (fun m => m.userId == n.userId) = 0 := by
        rw [List.countP_eq_zero]
        intro m hm
        obtain ⟨g, hg, hgid⟩ := hcover m hm
        have := hnone g hg
        rw [hgid] at this
        simpa using this
      refine ⟨?_, ?_, ?_⟩
      · rw [List.map_append, List.nodup_append]
        refine ⟨hnodup, List.nodup_singleton _, ?_⟩
        intro a ha hb
        obtain ⟨g, hg, hga⟩ := List.mem_map.1 ha
        have : a = n.userId := by simpa using hb
        exact hnone g hg (hga.trans this)
      · intro g hg
        rcases List.mem_append.1 hg with hg | hg
        · obtain ⟨hc, hpos⟩ := hcount g hg
          have hne : ¬ n.userId = g._id := fun h => hnone g hg h.symm
          simp [hne, List.countP_append, List.countP_cons]
          exact ⟨hc, hpos⟩
        · have hgn : g = { _id := n.userId, postCount := 1 } := by simpa using hg
          subst hgn
          simp [List.countP_append, List.countP_cons, hfresh]
      · intro m hm
        rcases List.mem_append.1 hm with hm | hm
        · obtain ⟨g, hg, hgid⟩ := hcover m hm
          exact ⟨g, List.mem_append_left _ hg, hgid⟩
        · have hmn : m = n := by simpa using hm
          subst hmn
          exact ⟨_, List.mem_append_right _ (List.mem_singleton_self _), rfl⟩

theorem unwind_lookup_eq (users : List User) (groups : List AuthorGroup) :
    unwind (lookup users groups)
      = groups.flatMap (fun g => (users.filter (fun u => u._id == g._id)).map
          (fun u => ({ _id := g._id, postCount := g.postCount, user := u } : AuthorUnwound))) := by
  induction groups with
  | nil => rfl
  | cons g gs ih =>
    have h := ih
    simp only [unwind, lookup] at h
    simp only [unwind, lookup, List.map_cons, List.flatMap_cons, h]

theorem mem_unwind_lookup {users : List User} {groups : List AuthorGroup} {r : AuthorUnwound} :
    r ∈ unwind (lookup users groups) ↔
      ∃ g ∈ groups, r._id = g._id ∧ r.postCount = g.postCount ∧ r.user ∈ users ∧
        r.user._id = g._id := by
  rw [unwind_lookup_eq]
  simp only [List.mem_flatMap, List.mem_map, List.mem_filter]
  constructor
  · rintro ⟨g, hg, u, ⟨hu, hid⟩, rfl⟩
    exact ⟨g, hg, rfl, rfl, hu, by simpa using hid⟩
  · rintro ⟨g, hg, h1, h2, h3, h4⟩
    refine ⟨g, hg, r.user, ⟨h3, by simpa using h4⟩, ?_⟩
    cases r
    simp_all

theorem filter_id_length_le_one (users : List User)
    (hunique : (users.map (fun u => u._id)).Nodup) (i : Nat) :
    (users.filter (fun u => u._id == i)).length ≤ 1 := by
  have hsub : ((users.filter (fun u => u._id == i)).map (fun u => u._id)).Nodup :=
    hunique.sublist ((List.filter_sublist users).map _)
  have hrep : (users.filter (fun u => u._id == i)).map (fun u => u._id)
      = List.replicate (users.filter (fun u => u._id == i)).length i := by
    rw [List.eq_replicate_iff]
    refine ⟨by simp, ?_⟩
    intro b hb
    obtain ⟨u, hu, rfl⟩ := List.mem_map.1 hb
    simpa using (List.mem_filter.1 hu).2
  rw [hrep] at hsub
  exact List.nodup_replicate.1 hsub

theorem unwind_lookup_nodup (users : List User)
    (hunique : (users.map (fun u => u._id)).Nodup) :
    ∀ groups : List AuthorGroup, (groups.map (fun g => g._id)).Nodup →
      ((unwind (lookup users groups)).map (fun r => r._id)).Nodup := by
  intro groups
  induction groups with
  | nil => intro _; simp [unwind, lookup]
  | cons g gs ih =>
    intro hnodup
    rw [List.map_cons, List.nodup_cons] at hnodup
    have hcons : unwind (lookup users (g :: gs))
        = (users.filter (fun u => u._id == g._id)).map
            (fun u => ({ _id := g._id, postCount := g.postCount, user := u } : AuthorUnwound))
          ++ unwind (lookup users gs) := by
      rw [unwind_lookup_eq, unwind_lookup_eq, List.flatMap_cons]
    rw [hcons, List.map_append, List.nodup_append]
    refine ⟨?_, ih hnodup.2, ?_⟩
    · have hlen := filter_id_length_le_one users hunique g._id
      rw [List.map_map]
      generalize users.filter (fun u => u._id == g._id) = l at hlen
      match l, hlen with
      | [], _ => simp
      | [_], _ => simp
    · intro a ha hb
      have ha' : a = g._id := by
        simp only [List.map_map, List.mem_map] at ha
        obtain ⟨_, _, h⟩ := ha
        exact h.symm
      obtain ⟨r, hr, hra⟩ := List.mem_map.1 hb
      obtain ⟨g', hg', hid, _⟩ := mem_unwind_lookup.1 hr
      apply hnodup.1
      rw [← ha', ← hra, hid]
      exact List.mem_map_of_mem (fun g => g._id) hg'

theorem sortByPostCount_project (rows : List AuthorUnwound) :
    sortByPostCount (project rows)
      = project (rows.insertionSort (fun a b => a.postCount ≥ b.postCount)) := by
  unfold sortByPostCount project
  exact (List.map_insertionSort (fun a b : AuthorUnwound => a.postCount ≥ b.postCount)
    (fun a b : String × Nat => a.2 ≥ b.2) (fun r => (r.user.username, r.postCount)) rows
    (fun _ _ _ _ => Iff.rfl)).symm

theorem sorted_rows (rows : List AuthorUnwound) :
    (rows.insertionSort (fun a b => a.postCount ≥ b.postCount)).Pairwise
      (fun a b => a.postCount ≥ b.postCount) := by
  haveI : IsTotal AuthorUnwound (fun a b => a.postCount ≥ b.postCount) :=
    ⟨fun a b => le_total b.postCount a.postCount⟩
  haveI : IsTrans AuthorUnwound (fun a b => a.postCount ≥ b.postCount) :=
    ⟨fun _ _ _ hab hbc => le_trans hbc hab⟩
  exact List.sorted_insertionSort (fun a b : AuthorUnwound => a.postCount ≥ b.postCount) rows

/-- C8: for every note collection and every user collection (with unique
`_id`s), `topAuthors` is the projection to `(username, postCount)` of at most ten
rows with pairwise different owner ids; each row carries a user of the
collection whose `_id` is the owner id, and its `postCount` is the number of
notes of that owner; the list is in non-increasing order of `postCount`; an
owner with notes and a matching user is omitted only when ten rows are listed,
and then its count is at most the count of every listed row.  Over the notes
`u1:3, u2:1, u3:5` the result is `u3 (5), u1 (3), u2 (1)`. -/
theorem topAuthors_ranking :
    (∀ (notes : List Note) (users : List User), (users.map (fun u => u._id)).Nodup →
      ∃ rows : List AuthorUnwound,
        topAuthors notes users = project rows ∧ rows.length ≤ 10 ∧
        (rows.map (fun r => r._id)).Nodup ∧
        (∀ r ∈ rows, r.user ∈ users ∧ r.user._id = r._id ∧
          r.postCount = notes.countP (fun n => n.userId == r._id) ∧ 0 < r.postCount) ∧
        (topAuthors notes users).Pairwise (fun a b => a.2 ≥ b.2) ∧
        (∀ o, (∃ n ∈ notes, n.userId = o) → (∃ u ∈ users, u._id = o) →
          o ∉ rows.map (fun r => r._id) →
          rows.length = 10 ∧
          ∀ r ∈ rows, notes.countP (fun n => n.userId == o) ≤ r.postCount)) ∧
    topAuthors exampleNotes exampleUsers = [("u3", 5), ("u1", 3), ("u2", 1)] := by
  refine ⟨?_, by decide⟩
  intro notes users hunique
  obtain ⟨hgnodup, hgcount, hgcover⟩ := group_invariant notes
  have hperm := List.perm_insertionSort (fun a b : AuthorUnwound => a.postCount ≥ b.postCount)
    (unwind (lookup users (group notes)))
  have hsorted := sorted_rows (unwind (lookup users (group notes)))
  have hunodup := unwind_lookup_nodup users hunique (group notes) hgnodup
  generalize hS : (unwind (lookup users (group notes))).insertionSort
    (fun a b => a.postCount ≥ b.postCount) = S at hperm hsorted
  have htop : topAuthors notes users = project (S.take 10) := by
    unfold topAuthors
    rw [sortByPostCount_project, hS]
    simp [project, List.map_take]
  have hmemU : ∀ r ∈ S.take 10, r ∈ unwind (lookup users (group notes)) :=
    fun r hr => hperm.subset (List.mem_of_mem_take hr)
  refine ⟨S.take 10, htop, ?_, ?_, ?_, ?_, ?_⟩
  · exact List.length_take_le 10 S
  · exact ((hperm.map (fun r => r._id)).nodup_iff.2 hunodup).sublist
      ((List.take_sublist 10 S).map _)
  · intro r hr
    obtain ⟨g, hg, hid, hpc, hu, huid⟩ := mem_unwind_lookup.1 (hmemU r hr)
    obtain ⟨hc, hpos⟩ := hgcount g hg
    exact ⟨hu, by rw [huid, hid], by rw [hpc, hid, hc], by rw [hpc]; exact hpos⟩
  · rw [htop]
    unfold project
    rw [List.pairwise_map]
    exact hsorted.sublist (List.take_sublist 10 S)
  · intro o ⟨n, hn, hno⟩ ⟨u, hu, huo⟩ homit
    obtain ⟨g, hg, hgid⟩ := hgcover n hn
    have hgo : g._id = o := hgid.trans hno
    have hrow : ({ _id := g._id, postCount := g.postCount, user := u } : AuthorUnwound)
        ∈ unwind (lookup users (group notes)) :=
      mem_unwind_lookup.2 ⟨g, hg, rfl, rfl, hu, by rw [huo, hgo]⟩
    have hrowS := hperm.symm.subset hrow
    rw [← List.take_append_drop 10 S] at hrowS hsorted
    have hdrop : ({ _id := g._id, postCount := g.postCount, user := u } : AuthorUnwound)
        ∈ S.drop 10 := by
      rcases List.mem_append.1 hrowS with h | h
      · exact absurd (List.mem_map.2 ⟨_, h, hgo⟩) homit
      · exact h
    refine ⟨?_, ?_⟩
    · have hlen : 10 < S.length := by
        by_contra hle
        rw [List.drop_eq_nil_of_le (by omega)] at hdrop
        simp at hdrop
      rw [List.length_take]; omega
    · intro r hr
      have := (List.pairwise_append.1 hsorted).2.2 r hr _ hdrop
      rw [← hgo, ← (hgcount g hg).1]
      exact this

/-- Witness of C8: the aggregation over the nine notes and three users of the
scenario. -/
theorem topAuthors_ranking_witness :
    ∃ rows : List AuthorUnwound,
      topAuthors exampleNotes exampleUsers = project rows ∧ rows.length ≤ 10 ∧
      (rows.map (fun r => r._id)).Nodup ∧
      (∀ r ∈ rows, r.user ∈ exampleUsers ∧ r.user._id = r._id ∧
        r.postCount = exampleNotes.countP (fun n => n.userId == r._id) ∧ 0 < r.postCount) ∧
      (topAuthors exampleNotes exampleUsers).Pairwise (fun a b => a.2 ≥ b.2) ∧
      (∀ o, (∃ n ∈ exampleNotes, n.userId = o) → (∃ u ∈ exampleUsers, u._id = o) →
        o ∉ rows.map (fun r => r._id) →
        rows.length = 10 ∧
        ∀ r ∈ rows, exampleNotes.countP (fun n => n.userId == o) ≤ r.postCount) :=
  topAuthors_ranking.1 exampleNotes exampleUsers (by decide)

end Kerefo
